import Mathlib

/-! ItemSetDistributor.js: a shallow embedding

The script `scripts/item_distribution/server_scripts/ItemSetDistributor.js`
registers, for every configured item set, a chat command with three leaves
(self use, targeted use, targeted clear) and gates one-use commands with a
per-player flag kept in the player's persistent data.

The host (the game server) is modelled by

* a `World`: every player's persistent `itemCommands` compound together with
  the chronological trace of the effects the script requested, and
* a `Host` oracle telling whether `player.give(...)` throws.

Players are identified by their name (`player.getName().getString()`).
-/

namespace ItemSetDistributor

/-! ## Data model -/

/-- One object of an item-set array.  Every field is optional, as in the
loosely typed source: the header carries `command` / `oneUse`, an item entry
carries `id` / `count`. -/
structure Entry where
  command : Option String := none
  oneUse : Option Bool := none
  id : Option String := none
  count : Option Int := none
  deriving DecidableEq, Repr

/-- The result of `Item.of(id, count)`. -/
structure ItemStack where
  id : String
  count : Int
  deriving DecidableEq, Repr

/-- The third argument of `manageCommandState`. -/
inductive Action where
  | canRun
  | markRun
  | clearRun
  deriving DecidableEq, Repr

/-- Effects requested from the host, plus two bookkeeping markers recording
that `giveItems` resp. `manageCommandState` was entered. -/
inductive Event where
  /-- Source: `player.give(Item.of(id, count))` was requested -/
  | give (player : String) (stack : ItemStack)
  /-- Source: `player.server.tell(Text.of(msg))` -/
  | tell (msg : String)
  /-- Source: `ctx.source.sendFailure(Component.red(msg))` -/
  | sendFailure (msg : String)
  /-- Source: `ctx.source.sendSystemMessage(Text.green(msg))` -/
  | sendSystemMessage (msg : String)
  /-- Source: `console.error(msg)` -/
  | consoleError (msg : String)
  /-- entry into `giveItems(player, items)` -/
  | callGiveItems (player : String)
  /-- entry into `manageCommandState(player, commandName, action, _)` -/
  | callManageCommandState (player : String) (commandName : String) (action : Action)
  deriving DecidableEq, Repr

/-- The compound stored under `commandSubcategory`: command name ↦ flag. -/
abbrev Compound := List (String × Bool)

/-- The state the script can read or change. `persistentData p` is the
compound stored under the key `itemCommands` in the persistent data of
player `p`, or `none` when that key is not contained. -/
structure World where
  persistentData : String → Option Compound
  trace : List Event

/-- The host's answer to `player.give(Item.of(id, count))`: `some msg` when the
call throws an error with message `msg`, `none` when it returns.  The answer
may depend on everything requested so far. -/
abbrev Host := List Event → String → ItemStack → Option String

/-! ## Compound tag operations -/

/-- Source: `data.get(commandName)`; `none` is `null`. -/
def Compound.get (data : Compound) (commandName : String) : Option Bool :=
  data.lookup commandName

/-- Source: `data.remove(commandName)`. -/
def Compound.remove (data : Compound) (commandName : String) : Compound :=
  data.filter (fun kv => kv.1 != commandName)

/-- Source: `data.putBoolean(commandName, value)`. -/
def Compound.putBoolean (data : Compound) (commandName : String) (value : Bool) : Compound :=
  (commandName, value) :: data.remove commandName

/-! ## The script -/

/-- Append one event to the trace. -/
def World.emit (w : World) (e : Event) : World :=
  { w with trace := w.trace ++ [e] }

/-- Source: `function manageCommandState(player, commandName, action, state)`.
The returned `Option Bool` is the JavaScript return value (`none` is
`undefined`, returned by `markRun` and `clearRun`). -/
def manageCommandState (w : World) (player commandName : String) (action : Action)
    (state : Bool) : Option Bool × World :=
  let w := w.emit (.callManageCommandState player commandName action)
  -- if (!player.persistentData.contains(commandSubcategory)) put(commandSubcategory, {})
  let data : Compound :=
    match w.persistentData player with
    | some d => d
    | none => []
  match action with
  | .canRun =>
    (some (!state || data.get commandName == none || data.get commandName == some false),
      { w with persistentData := Function.update w.persistentData player (some data) })
  | .markRun =>
    (none, { w with persistentData :=
      Function.update w.persistentData player (some (data.putBoolean commandName true)) })
  | .clearRun =>
    (none, { w with persistentData :=
      Function.update w.persistentData player (some (data.remove commandName)) })

/-- JavaScript truthiness of an optional string field: present and non-empty. -/
def truthy (s : Option String) : Bool :=
  match s with
  | some v => v != ""
  | none => false

/-- The string value of an optional string field (`"undefined"` when absent,
as in a template literal). -/
def render (s : Option String) : String :=
  match s with
  | some v => v
  | none => "undefined"

/-- Source: `item.count || 1`: the count, or `1` when it is absent or `0`. -/
def Entry.countOrOne (item : Entry) : Int :=
  match item.count with
  | some c => if c = 0 then 1 else c
  | none => 1

/-- What `registerItemCommand` captures when it passes its guard and calls
`event.register`: `command`, `oneUse`, and the array `items`, kept as its
first object `header` followed by `rest`. -/
structure Registered where
  command : String
  oneUse : Bool
  header : Entry
  rest : List Entry
  deriving DecidableEq, Repr

/-- Source: `function registerItemCommand(items)`: `none` when the guard
`!items || !items.length || !items[0].command` returns early, otherwise the
registered command with `oneUse = items[0].oneUse || false`. -/
def registerItemCommand (items : List Entry) : Option Registered :=
  match items with
  | [] => none
  | header :: rest =>
    if truthy header.command then
      some { command := render header.command, oneUse := header.oneUse.getD false,
             header := header, rest := rest }
    else none

/-- The body of `items.forEach(item => { if (item.id) player.give(...) })`,
threading the trace.  The second component is the message of the error that
aborted the loop, if any. -/
def forEachGive (host : Host) (player : String) :
    List Entry → List Event → List Event × Option String
  | [], tr => (tr, none)
  | item :: items, tr =>
    if truthy item.id then
      let stack : ItemStack := { id := render item.id, count := item.countOrOne }
      match host tr player stack with
      | some msg => (tr ++ [.give player stack], some msg)
      | none => forEachGive host player items (tr ++ [.give player stack])
    else forEachGive host player items tr

/-- Source: `function giveItems(player, items)` for a non-empty array
`items = header :: rest` (every call site passes an array that went through
the guard of `registerItemCommand`). -/
def giveItems (host : Host) (player : String) (header : Entry) (rest : List Entry)
    (w : World) : World :=
  let w := w.emit (.callGiveItems player)
  match forEachGive host player (header :: rest) w.trace with
  | (tr, none) =>
    { w with trace := tr ++
        [.tell ("Items from '" ++ render header.command ++ "' given to " ++ player)] }
  | (tr, some msg) =>
    { w with trace := tr ++
        [.consoleError ("Error giving items: " ++ msg),
         .tell ("Error giving items from '" ++ render header.command ++ "': " ++ msg)] }

/-- A command source that is a player: `ctx.source.player` and
`ctx.source.hasPermission(2)`. -/
structure Source where
  player : String
  hasPermission : Bool
  deriving DecidableEq, Repr

/-- Source: `error.message.includes(pattern)`. -/
def includes (message pattern : String) : Bool :=
  message.toList.tails.any (fun t => pattern.toList.isPrefixOf t)

/-- The `.executes` of `Commands.literal(command)`: self use.  Returns the
status and the world afterwards. -/
def selfExecutes (host : Host) (r : Registered) (src : Source) (w : World) : Nat × World :=
  let player := src.player
  -- ctx.source.hasPermission(2) || manageCommandState(player, command, 'canRun', oneUse)
  let (allowed, w) :=
    if src.hasPermission then (true, w)
    else
      let res := manageCommandState w player r.command .canRun r.oneUse
      (res.1 == some true, res.2)
  if allowed then
    let w := giveItems host player r.header r.rest w
    let w :=
      if r.oneUse && !src.hasPermission then
        (manageCommandState w player r.command .markRun false).2
      else w
    (1, w)
  else
    (0, w.emit (.sendFailure ("You've already received items from '" ++ r.command ++ "'.")))

/-- The `catch (error)` block shared by the two targeted leaves. -/
def catchBlock (message : String) (w : World) : Nat × World :=
  if includes message "No player was found" then
    (0, w.emit (.sendFailure "Player not found!"))
  else
    (0, (w.emit (.consoleError ("Unexpected error: " ++ message))).emit
          (.sendFailure "An unexpected error occurred."))

/-- The `.requires` predicate guarding both targeted leaves. -/
def targetedRequires (src : Source) : Bool := src.hasPermission

/-- The `.executes` of the `player` argument: targeted use.  `resolved` is the
outcome of `Arguments.PLAYER.getResult(ctx, 'player')`: the target player, or
the message of the error it threw. -/
def targetedExecutes (host : Host) (r : Registered) (resolved : Except String String)
    (w : World) : Nat × World :=
  match resolved with
  | .ok targetPlayer =>
    let res := manageCommandState w targetPlayer r.command .canRun r.oneUse
    if res.1 == some true then
      let w := giveItems host targetPlayer r.header r.rest res.2
      let w :=
        if r.oneUse then (manageCommandState w targetPlayer r.command .markRun false).2
        else w
      (1, w)
    else
      (0, res.2.emit
        (.sendFailure ("The player has already received items from '" ++ r.command ++ "'.")))
  | .error message => catchBlock message w

/-- The `.executes` of `Commands.literal('clear')`: targeted clear. -/
def clearExecutes (r : Registered) (resolved : Except String String) (w : World) :
    Nat × World :=
  match resolved with
  | .ok targetPlayer =>
    let w := (manageCommandState w targetPlayer r.command .clearRun false).2
    let w := w.emit
      (.sendSystemMessage ("Command '" ++ r.command ++ "' cleared for " ++ targetPlayer ++ "."))
    let w := w.emit (.tell ("Command '" ++ r.command ++ "' has been cleared by an operator."))
    (1, w)
  | .error message => catchBlock message w

/-- Source: `const itemSet1` of the script. -/
def itemSet1 : List Entry :=
  [ { command := some "giveItemSet1" },
    { id := some "minecraft:stone_sword" },
    { id := some "minecraft:stone_pickaxe" },
    { id := some "minecraft:stone_axe" },
    { id := some "minecraft:stone_shovel" } ]

/-- Source: `const itemSet2` of the script. -/
def itemSet2 : List Entry :=
  [ { command := some "giveItemSet2", oneUse := some true },
    { id := some "minecraft:iron_ingot", count := some 32 },
    { id := some "minecraft:gold_ingot", count := some 16 },
    { id := some "minecraft:diamond", count := some 8 } ]

/-! ## Observations used to state the properties -/

/-- The run flag recorded for `(player, commandName)`: `none` when the
`itemCommands` compound or the key is absent. -/
def World.flag (w : World) (player commandName : String) : Option Bool :=
  match w.persistentData player with
  | some d => d.get commandName
  | none => none

/-- One call `manageCommandState(player, commandName, action, state)`. -/
structure Call where
  player : String
  commandName : String
  action : Action
  state : Bool
  deriving DecidableEq, Repr

/-- Perform a sequence of `manageCommandState` calls, left to right. -/
def runCalls (w : World) : List Call → World
  | [] => w
  | c :: cs => runCalls (manageCommandState w c.player c.commandName c.action c.state).2 cs

/-- The give requests an item list stands for: one stack for every entry
that carries a non-empty `id`, in list order, with `count || 1` units. -/
def giveRequests (items : List Entry) : List ItemStack :=
  items.filterMap (fun item =>
    match item.id with
    | some id => if id = "" then none else some { id := id, count := item.countOrOne }
    | none => none)

/-- One command invocation of a registered command. -/
inductive Step where
  /-- The form `/command`, entered by `src` -/
  | self (src : Source)
  /-- The form `/command name`, entered by an operator; `resolved` is the outcome of
  resolving `name` -/
  | targeted (resolved : Except String String)
  /-- The form `/command name clear`, entered by an operator -/
  | clear (resolved : Except String String)

/-- Run one invocation; the status and the world afterwards. -/
def runStep (host : Host) (r : Registered) (w : World) : Step → Nat × World
  | .self src => selfExecutes host r src w
  | .targeted resolved => targetedExecutes host r resolved w
  | .clear resolved => clearExecutes r resolved w

/-- Run a sequence of invocations, left to right. -/
def runSteps (host : Host) (r : Registered) (w : World) : List Step → World
  | [] => w
  | s :: ss => runSteps host r (runStep host r w s).2 ss

/-- A host on which every give returns. -/
def acceptingHost : Host := fun _ _ _ => none

/-- A host whose give throws `Inventory full` for gold ingots. -/
def goldRejectingHost : Host := fun _ _ stack =>
  if stack.id = "minecraft:gold_ingot" then some "Inventory full" else none

/-- A world in which no player has an `itemCommands` compound and nothing
has happened yet. -/
def freshWorld : World := { persistentData := fun _ => none, trace := [] }

/-- What `registerItemCommand(itemSet1)` registers. -/
def registered1 : Registered :=
  { command := "giveItemSet1", oneUse := false,
    header := { command := some "giveItemSet1" },
    rest := [ { id := some "minecraft:stone_sword" },
              { id := some "minecraft:stone_pickaxe" },
              { id := some "minecraft:stone_axe" },
              { id := some "minecraft:stone_shovel" } ] }

/-- What `registerItemCommand(itemSet2)` registers. -/
def registered2 : Registered :=
  { command := "giveItemSet2", oneUse := true,
    header := { command := some "giveItemSet2", oneUse := some true },
    rest := [ { id := some "minecraft:iron_ingot", count := some 32 },
              { id := some "minecraft:gold_ingot", count := some 16 },
              { id := some "minecraft:diamond", count := some 8 } ] }

/-- The message of the error, if any, that aborts the loop of
`giveItems(player, items)` when `giveItems` is entered in world `w`. -/
def grantError (host : Host) (player : String) (r : Registered) (w : World) : Option String :=
  (forEachGive host player (r.header :: r.rest) (w.emit (.callGiveItems player)).trace).2

/-- How many times `giveItems` was entered for player `P` in a trace. -/
def giveItemsCalls (P : String) (tr : List Event) : Nat :=
  tr.count (Event.callGiveItems P)

/-- The invocations allowed in a history in which player `P` never holds
elevated permission and `P` is never the target of a targeted clear:
a self invocation by `P` comes without elevated permission, and a targeted
clear resolves to somebody else (or fails to resolve).  Invocations by or on
other players are not restricted. -/
def Step.admissible (P : String) : Step → Bool
  | .self src => src.player != P || !src.hasPermission
  | .targeted _ => true
  | .clear (.ok t) => t != P
  | .clear (.error _) => true

/-! ## Lemmas on compounds and on `manageCommandState` -/

theorem Compound.get_nil (k : String) : Compound.get [] k = none := rfl

theorem Compound.get_remove_same (data : Compound) (k : String) :
    (data.remove k).get k = none := by
  induction data with
  | nil => rfl
  | cons kv rest ih =>
    obtain ⟨a, b⟩ := kv
    by_cases h : a = k
    · simpa [Compound.remove, Compound.get, List.filter_cons, h] using ih
    · have hk : (k == a) = false := by simpa using fun h' => h h'.symm
      simpa [Compound.remove, Compound.get, List.filter_cons, h, List.lookup_cons, hk]
        using ih

theorem Compound.get_remove_of_ne (data : Compound) {j k : String} (h : j ≠ k) :
    (data.remove k).get j = data.get j := by
  induction data with
  | nil => rfl
  | cons kv rest ih =>
    obtain ⟨a, b⟩ := kv
    by_cases hak : a = k
    · subst hak
      have hj : (j == a) = false := by simpa using h
      simpa [Compound.remove, Compound.get, List.filter_cons, List.lookup_cons, hj]
        using ih
    · by_cases hja : j = a
      · simp [Compound.remove, Compound.get, List.filter_cons, hak, List.lookup_cons, hja]
      · have hj : (j == a) = false := by simpa using hja
        simpa [Compound.remove, Compound.get, List.filter_cons, hak, List.lookup_cons, hj]
          using ih

theorem Compound.get_putBoolean_same (data : Compound) (k : String) (v : Bool) :
    (data.putBoolean k v).get k = some v := by
  simp [Compound.putBoolean, Compound.get, List.lookup_cons]

theorem Compound.get_putBoolean_of_ne (data : Compound) {j k : String} (v : Bool)
    (h : j ≠ k) : (data.putBoolean k v).get j = data.get j := by
  have hj : (j == k) = false := by simpa using h
  have := Compound.get_remove_of_ne data h
  simpa [Compound.putBoolean, Compound.get, List.lookup_cons, hj] using this

/-- The value returned by a `canRun` call. -/
theorem canRun_result (w : World) (p c : String) (s : Bool) :
    (manageCommandState w p c .canRun s).1
      = some (!s || w.flag p c == none || w.flag p c == some false) := by
  unfold manageCommandState World.flag World.emit
  cases h : w.persistentData p <;> simp [h, Compound.get]

/-- A `markRun` call returns `undefined`. -/
theorem markRun_result (w : World) (p c : String) (s : Bool) :
    (manageCommandState w p c .markRun s).1 = none := rfl

/-- The flag of `(p', c')` after one call of `manageCommandState`. -/
theorem flag_manageCommandState (w : World) (p c : String) (a : Action) (s : Bool)
    (p' c' : String) :
    (manageCommandState w p c a s).2.flag p' c' =
      if p' = p ∧ c' = c then
        (match a with
          | .canRun => w.flag p c
          | .markRun => some true
          | .clearRun => none)
      else w.flag p' c' := by
  by_cases hp : p' = p
  · subst hp
    by_cases hc : c' = c
    · subst hc
      cases a <;> unfold manageCommandState World.flag World.emit <;>
        cases h : w.persistentData p' <;>
        simp [h, Compound.get_putBoolean_same, Compound.get_remove_same, Compound.get_nil]
    · cases a <;> unfold manageCommandState World.flag World.emit <;>
        cases h : w.persistentData p' <;>
        simp [h, hc, Compound.get_putBoolean_of_ne, Compound.get_remove_of_ne,
          Compound.get_nil]
  · have hp2 : ¬ (p' = p ∧ c' = c) := fun h => hp h.1
    cases a <;> unfold manageCommandState World.flag World.emit <;>
      simp [hp, Function.update_noteq]

/-- A call that is not `clearRun` on `(P, C)` keeps a set flag of `(P, C)`. -/
theorem flag_true_preserved (w : World) (P C : String) (c : Call)
    (hc : ¬ (c.player = P ∧ c.commandName = C ∧ c.action = .clearRun))
    (h : w.flag P C = some true) :
    (manageCommandState w c.player c.commandName c.action c.state).2.flag P C = some true := by
  rw [flag_manageCommandState]
  by_cases hpc : P = c.player ∧ C = c.commandName
  · obtain ⟨hp, hcn⟩ := hpc
    subst hp hcn
    rw [if_pos ⟨rfl, rfl⟩]
    cases ha : c.action with
    | canRun => simpa using h
    | markRun => rfl
    | clearRun => exact absurd ⟨rfl, rfl, ha⟩ hc
  · rw [if_neg hpc]; exact h

theorem flag_true_runCalls (P C : String) (calls : List Call) :
    ∀ w : World,
      (∀ c ∈ calls, ¬ (c.player = P ∧ c.commandName = C ∧ c.action = .clearRun)) →
      w.flag P C = some true → (runCalls w calls).flag P C = some true := by
  induction calls with
  | nil => intro w _ h; exact h
  | cons c cs ih =>
    intro w hno h
    exact ih _ (fun c' hc' => hno c' (List.mem_cons_of_mem _ hc'))
      (flag_true_preserved w P C c (hno c (List.mem_cons_self _ _)) h)

/-! ## C1: mark / clear round trip -/

/-- C1. After `manageCommandState(P, C, 'markRun')`, from any prior state,
`manageCommandState(P, C, 'canRun', true)` returns `false` after every prefix
of any further sequence of calls (for any player, command, action and state)
that contains no `clearRun` for `(P, C)`; once
`manageCommandState(P, C, 'clearRun')` is called it returns `true` again. -/
theorem markRun_blocks_canRun_until_clearRun (w : World) (P C : String) (calls : List Call)
    (hno : ∀ c ∈ calls, ¬ (c.player = P ∧ c.commandName = C ∧ c.action = .clearRun)) :
    (∀ n : Nat,
      (manageCommandState
        (runCalls (manageCommandState w P C .markRun false).2 (calls.take n))
        P C .canRun true).1 = some false) ∧
    (manageCommandState
      (manageCommandState
        (runCalls (manageCommandState w P C .markRun false).2 calls) P C .clearRun false).2
      P C .canRun true).1 = some true := by
  have hmark : (manageCommandState w P C .markRun false).2.flag P C = some true := by
    rw [flag_manageCommandState]; simp
  constructor
  · intro n
    have hflag := flag_true_runCalls P C (calls.take n) _
      (fun c hc => hno c (List.mem_of_mem_take hc)) hmark
    rw [canRun_result, hflag]; rfl
  · rw [canRun_result, flag_manageCommandState]; simp

/-- C1 at a concrete input: Steve's flag for `giveItemSet2` was explicitly
`false`; after `markRun`, a `canRun`, a second `markRun` and a `clearRun` of
another command leave `canRun` at `false`. -/
theorem markRun_blocks_canRun_until_clearRun_witness :
    (∀ c ∈ [Call.mk "Steve" "giveItemSet2" .canRun true,
            Call.mk "Steve" "giveItemSet2" .markRun false,
            Call.mk "Steve" "giveItemSet1" .clearRun false],
        ¬ (c.player = "Steve" ∧ c.commandName = "giveItemSet2" ∧ c.action = .clearRun)) ∧
    ((∀ n : Nat,
      (manageCommandState
        (runCalls (manageCommandState
            ⟨fun _ => some [("giveItemSet2", false)], []⟩
            "Steve" "giveItemSet2" .markRun false).2
          ([Call.mk "Steve" "giveItemSet2" .canRun true,
            Call.mk "Steve" "giveItemSet2" .markRun false,
            Call.mk "Steve" "giveItemSet1" .clearRun false].take n))
        "Steve" "giveItemSet2" .canRun true).1 = some false) ∧
    (manageCommandState
      (manageCommandState
        (runCalls (manageCommandState
            ⟨fun _ => some [("giveItemSet2", false)], []⟩
            "Steve" "giveItemSet2" .markRun false).2
          [Call.mk "Steve" "giveItemSet2" .canRun true,
           Call.mk "Steve" "giveItemSet2" .markRun false,
           Call.mk "Steve" "giveItemSet1" .clearRun false])
        "Steve" "giveItemSet2" .clearRun false).2
      "Steve" "giveItemSet2" .canRun true).1 = some true) :=
  ⟨by decide,
   markRun_blocks_canRun_until_clearRun ⟨fun _ => some [("giveItemSet2", false)], []⟩
     "Steve" "giveItemSet2" _ (by decide)⟩

/-! ## Lemmas on `giveItems` -/

theorem giveRequests_nil : giveRequests [] = [] := rfl

theorem giveRequests_cons_of_truthy (item : Entry) (items : List Entry)
    (h : truthy item.id = true) :
    giveRequests (item :: items)
      = { id := render item.id, count := item.countOrOne } :: giveRequests items := by
  unfold giveRequests
  cases hid : item.id with
  | none => simp [truthy, hid] at h
  | some id =>
    have hne : id ≠ "" := by simpa [truthy, hid] using h
    simp [List.filterMap_cons, hid, hne, render]

theorem giveRequests_cons_of_not_truthy (item : Entry) (items : List Entry)
    (h : truthy item.id = false) :
    giveRequests (item :: items) = giveRequests items := by
  unfold giveRequests
  cases hid : item.id with
  | none => simp [List.filterMap_cons, hid]
  | some id =>
    have he : id = "" := by simpa [truthy, hid] using h
    simp [List.filterMap_cons, hid, he]

/-- When every request is accepted, the loop issues all of them. -/
theorem forEachGive_accepted (host : Host) (player : String) (items : List Entry) :
    ∀ tr : List Event,
      (∀ (j : Nat) (stack : ItemStack), (giveRequests items)[j]? = some stack →
        host (tr ++ ((giveRequests items).take j).map (Event.give player)) player stack
          = none) →
      forEachGive host player items tr
        = (tr ++ (giveRequests items).map (Event.give player), none) := by
  induction items with
  | nil => intro tr _; simp [forEachGive, giveRequests_nil]
  | cons item items ih =>
    intro tr h
    by_cases hid : truthy item.id = true
    · rw [giveRequests_cons_of_truthy item items hid] at h ⊢
      have h0 := h 0 _ (List.getElem?_cons_zero)
      simp only [List.take_zero, List.map_nil, List.append_nil] at h0
      have hrest := ih (tr ++ [Event.give player ⟨render item.id, item.countOrOne⟩])
        (fun j stack hj => by
          have := h (j + 1) stack (by simpa using hj)
          simpa [List.take_succ_cons] using this)
      simp [forEachGive, hid, h0, hrest]
    · have hid' : truthy item.id = false := by simpa using hid
      rw [giveRequests_cons_of_not_truthy item items hid'] at h ⊢
      simpa [forEachGive, hid'] using ih tr h

/-- When the request number `k` is the first to be rejected, the loop stops
right after issuing it. -/
theorem forEachGive_rejected (host : Host) (player : String) (items : List Entry) :
    ∀ (tr : List Event) (k : Nat) (stack : ItemStack) (msg : String),
      (giveRequests items)[k]? = some stack →
      (∀ (j : Nat) (s : ItemStack), j < k → (giveRequests items)[j]? = some s →
        host (tr ++ ((giveRequests items).take j).map (Event.give player)) player s = none) →
      host (tr ++ ((giveRequests items).take k).map (Event.give player)) player stack
        = some msg →
      forEachGive host player items tr
        = (tr ++ ((giveRequests items).take (k + 1)).map (Event.give player), some msg) := by
  induction items with
  | nil => intro tr k stack msg hk; simp [giveRequests_nil] at hk
  | cons item items ih =>
    intro tr k stack msg hk hpre hfail
    by_cases hid : truthy item.id = true
    · rw [giveRequests_cons_of_truthy item items hid] at hk hpre hfail ⊢
      cases k with
      | zero =>
        simp only [List.getElem?_cons_zero, Option.some.injEq] at hk
        subst hk
        simp only [List.take_zero, List.map_nil, List.append_nil] at hfail
        simp [forEachGive, hid, hfail]
      | succ k =>
        have h0 := hpre 0 _ (Nat.succ_pos k) (List.getElem?_cons_zero)
        simp only [List.take_zero, List.map_nil, List.append_nil] at h0
        have hrest := ih (tr ++ [Event.give player ⟨render item.id, item.countOrOne⟩])
          k stack msg (by simpa using hk)
          (fun j s hj hs => by
            have := hpre (j + 1) s (Nat.succ_lt_succ hj) (by simpa using hs)
            simpa [List.take_succ_cons] using this)
          (by simpa [List.take_succ_cons] using hfail)
        simp [forEachGive, hid, h0, hrest, List.take_succ_cons]
    · have hid' : truthy item.id = false := by simpa using hid
      rw [giveRequests_cons_of_not_truthy item items hid'] at hk hpre hfail ⊢
      simpa [forEachGive, hid'] using ih tr k stack msg hk hpre hfail

/-- Whatever the host does, the loop appends a prefix of the requests. -/
theorem forEachGive_shape (host : Host) (player : String) (items : List Entry) :
    ∀ tr : List Event, ∃ n : Nat,
      (forEachGive host player items tr).1
        = tr ++ ((giveRequests items).take n).map (Event.give player) := by
  induction items with
  | nil => intro tr; exact ⟨0, by simp [forEachGive]⟩
  | cons item items ih =>
    intro tr
    by_cases hid : truthy item.id = true
    · rw [giveRequests_cons_of_truthy item items hid]
      cases hh : host tr player ⟨render item.id, item.countOrOne⟩ with
      | some msg => exact ⟨1, by simp [forEachGive, hid, hh]⟩
      | none =>
        obtain ⟨n, hn⟩ := ih (tr ++ [Event.give player ⟨render item.id, item.countOrOne⟩])
        exact ⟨n + 1, by simp [forEachGive, hid, hh, hn, List.take_succ_cons]⟩
    · have hid' : truthy item.id = false := by simpa using hid
      rw [giveRequests_cons_of_not_truthy item items hid']
      obtain ⟨n, hn⟩ := ih tr
      exact ⟨n, by simpa [forEachGive, hid'] using hn⟩

theorem giveItems_persistentData (host : Host) (player : String) (header : Entry)
    (rest : List Entry) (w : World) :
    (giveItems host player header rest w).persistentData = w.persistentData := by
  simp only [giveItems]
  cases forEachGive host player (header :: rest)
      (w.emit (Event.callGiveItems player)).trace with
  | mk tr err => cases err <;> rfl

theorem giveItems_flag (host : Host) (player : String) (header : Entry)
    (rest : List Entry) (w : World) (p c : String) :
    (giveItems host player header rest w).flag p c = w.flag p c := by
  unfold World.flag
  rw [giveItems_persistentData]

/-- The trace of `giveItems`, whatever the host does: the entry marker, a
prefix of the requests, and one or two closing messages. -/
theorem giveItems_shape (host : Host) (player : String) (header : Entry)
    (rest : List Entry) (w : World) :
    ∃ (n : Nat) (tail : List Event),
      (giveItems host player header rest w).trace
        = w.trace ++ [Event.callGiveItems player]
            ++ ((giveRequests (header :: rest)).take n).map (Event.give player) ++ tail ∧
      (tail = [Event.tell ("Items from '" ++ render header.command ++ "' given to " ++ player)]
        ∨ ∃ msg, tail =
          [Event.consoleError ("Error giving items: " ++ msg),
           Event.tell ("Error giving items from '" ++ render header.command ++ "': " ++ msg)]) := by
  obtain ⟨n, hn⟩ := forEachGive_shape host player (header :: rest)
    (w.trace ++ [Event.callGiveItems player])
  cases hres : forEachGive host player (header :: rest)
      (w.trace ++ [Event.callGiveItems player]) with
  | mk tr err =>
    rw [hres] at hn
    simp only at hn
    cases err with
    | none =>
      exact ⟨n, _, by simp [giveItems, World.emit, hres, hn], Or.inl rfl⟩
    | some msg =>
      exact ⟨n, _, by simp [giveItems, World.emit, hres, hn], Or.inr ⟨msg, rfl⟩⟩

/-- The trace of `giveItems` when the host accepts every request. -/
theorem giveItems_trace_of_accepted (host : Host) (player : String) (header : Entry)
    (rest : List Entry) (w : World)
    (h : ∀ (j : Nat) (stack : ItemStack), (giveRequests (header :: rest))[j]? = some stack →
        host (w.trace ++ [Event.callGiveItems player]
          ++ ((giveRequests (header :: rest)).take j).map (Event.give player)) player stack
          = none) :
    (giveItems host player header rest w).trace
      = w.trace ++ [Event.callGiveItems player]
          ++ (giveRequests (header :: rest)).map (Event.give player)
          ++ [Event.tell
              ("Items from '" ++ render header.command ++ "' given to " ++ player)] := by
  have := forEachGive_accepted host player (header :: rest)
    (w.trace ++ [Event.callGiveItems player]) h
  simp [giveItems, World.emit, this]

/-- The trace of `giveItems` when the host rejects a request. -/
theorem giveItems_trace_of_grantError (host : Host) (player : String) (r : Registered)
    (w : World) (msg : String) (h : grantError host player r w = some msg) :
    ∃ tr, (giveItems host player r.header r.rest w).trace
      = tr ++ [Event.consoleError ("Error giving items: " ++ msg),
               Event.tell ("Error giving items from '" ++ render r.header.command
                 ++ "': " ++ msg)] := by
  unfold grantError at h
  cases hres : forEachGive host player (r.header :: r.rest)
      (w.emit (Event.callGiveItems player)).trace with
  | mk tr err =>
    rw [hres] at h
    simp only at h
    subst h
    exact ⟨tr, by simp [giveItems, hres]⟩

/-! ## C8: what `giveItems` requests -/

/-- C8. `giveItems(player, items)` issues the give requests of
`giveRequests items`, i.e. one for every entry with a non-empty `id`, in list
order, with `count || 1` units (the entry's count, or 1 when the count is
absent), and none for entries without an `id`.  If the host accepts all of
them, the success message naming the command and the player follows.  If the
request number `k` is the first one the host rejects, the requests up to and
including it have been issued, none is issued for a later entry, and the
error is logged and reported with its message instead of the success
message.  The persistent data is not touched. -/
theorem giveItems_requests_in_order (host : Host) (player : String) (header : Entry)
    (rest : List Entry) (w : World) :
    (∀ e : Entry, e.count = none → e.countOrOne = 1) ∧
    (∀ (e : Entry) (c : Int), e.count = some c → c ≠ 0 → e.countOrOne = c) ∧
    (∀ e : Entry, e ∈ header :: rest → e.id = none ∨ e.id = some "" →
      giveRequests [e] = []) ∧
    (∀ (e : Entry) (id : String), e ∈ header :: rest → e.id = some id → id ≠ "" →
      giveRequests [e] = [{ id := id, count := e.countOrOne }]) ∧
    (giveItems host player header rest w).persistentData = w.persistentData ∧
    ((∀ (j : Nat) (stack : ItemStack), (giveRequests (header :: rest))[j]? = some stack →
        host (w.trace ++ [Event.callGiveItems player]
          ++ ((giveRequests (header :: rest)).take j).map (Event.give player)) player stack
          = none) →
      (giveItems host player header rest w).trace
        = w.trace ++ [Event.callGiveItems player]
            ++ (giveRequests (header :: rest)).map (Event.give player)
            ++ [Event.tell
                ("Items from '" ++ render header.command ++ "' given to " ++ player)]) ∧
    (∀ (k : Nat) (stack : ItemStack) (msg : String),
      (giveRequests (header :: rest))[k]? = some stack →
      (∀ (j : Nat) (s : ItemStack), j < k → (giveRequests (header :: rest))[j]? = some s →
        host (w.trace ++ [Event.callGiveItems player]
          ++ ((giveRequests (header :: rest)).take j).map (Event.give player)) player s
          = none) →
      host (w.trace ++ [Event.callGiveItems player]
          ++ ((giveRequests (header :: rest)).take k).map (Event.give player)) player stack
        = some msg →
      (giveItems host player header rest w).trace
        = w.trace ++ [Event.callGiveItems player]
            ++ ((giveRequests (header :: rest)).take (k + 1)).map (Event.give player)
            ++ [Event.consoleError ("Error giving items: " ++ msg),
                Event.tell ("Error giving items from '" ++ render header.command
                  ++ "': " ++ msg)]) := by
  refine ⟨?_, ?_, ?_, ?_, giveItems_persistentData host player header rest w, ?_, ?_⟩
  · intro e h; simp [Entry.countOrOne, h]
  · intro e c h hc; simp [Entry.countOrOne, h, hc]
  · intro e _ h
    rcases h with h | h <;> simp [giveRequests, h]
  · intro e id _ h hne
    simp [giveRequests, h, hne]
  · intro h
    have := forEachGive_accepted host player (header :: rest)
      (w.trace ++ [Event.callGiveItems player]) h
    simp [giveItems, World.emit, this]
  · intro k stack msg hk hpre hfail
    have := forEachGive_rejected host player (header :: rest)
      (w.trace ++ [Event.callGiveItems player]) k stack msg hk hpre hfail
    simp [giveItems, World.emit, this]

/-! ## Lemmas on the leaves -/

theorem registerItemCommand_itemSet1 : registerItemCommand itemSet1 = some registered1 := by
  decide

theorem registerItemCommand_itemSet2 : registerItemCommand itemSet2 = some registered2 := by
  decide

theorem emit_persistentData (w : World) (e : Event) :
    (w.emit e).persistentData = w.persistentData := rfl

theorem emit_trace (w : World) (e : Event) : (w.emit e).trace = w.trace ++ [e] := rfl

theorem emit_flag (w : World) (e : Event) (p c : String) : (w.emit e).flag p c = w.flag p c :=
  rfl

theorem manageCommandState_trace (w : World) (p c : String) (a : Action) (s : Bool) :
    (manageCommandState w p c a s).2.trace
      = w.trace ++ [Event.callManageCommandState p c a] := by
  cases a <;> rfl

/-- A `canRun` call on a player whose compound exists changes no persistent data. -/
theorem canRun_persistentData_of_some (w : World) (p c : String) (s : Bool) (d : Compound)
    (h : w.persistentData p = some d) :
    (manageCommandState w p c .canRun s).2.persistentData = w.persistentData := by
  simp [manageCommandState, World.emit, h]

theorem markRun_persistentData_some (w : World) (p c : String) (s : Bool) :
    ∃ d, (manageCommandState w p c .markRun s).2.persistentData p = some d := by
  simp [manageCommandState, World.emit]

/-- The self leaf entered with elevated permission. -/
theorem selfExecutes_of_permission (host : Host) (r : Registered) (src : Source) (w : World)
    (h : src.hasPermission = true) :
    selfExecutes host r src w = (1, giveItems host src.player r.header r.rest w) := by
  simp [selfExecutes, h]

/-- The self leaf entered without elevated permission, gate open. -/
theorem selfExecutes_of_canRun (host : Host) (r : Registered) (src : Source) (w : World)
    (h : src.hasPermission = false)
    (hcan : (manageCommandState w src.player r.command .canRun r.oneUse).1 = some true) :
    selfExecutes host r src w =
      (1, if r.oneUse = true then
            (manageCommandState
              (giveItems host src.player r.header r.rest
                (manageCommandState w src.player r.command .canRun r.oneUse).2)
              src.player r.command .markRun false).2
          else giveItems host src.player r.header r.rest
                (manageCommandState w src.player r.command .canRun r.oneUse).2) := by
  simp [selfExecutes, h, hcan]

/-- The self leaf entered without elevated permission, gate closed. -/
theorem selfExecutes_of_refused (host : Host) (r : Registered) (src : Source) (w : World)
    (h : src.hasPermission = false)
    (hcan : (manageCommandState w src.player r.command .canRun r.oneUse).1 = some false) :
    selfExecutes host r src w =
      (0, (manageCommandState w src.player r.command .canRun r.oneUse).2.emit
            (Event.sendFailure
              ("You've already received items from '" ++ r.command ++ "'."))) := by
  simp [selfExecutes, h, hcan]

/-- The targeted leaf, target resolved, gate open. -/
theorem targetedExecutes_of_canRun (host : Host) (r : Registered) (t : String) (w : World)
    (hcan : (manageCommandState w t r.command .canRun r.oneUse).1 = some true) :
    targetedExecutes host r (.ok t) w =
      (1, if r.oneUse = true then
            (manageCommandState
              (giveItems host t r.header r.rest
                (manageCommandState w t r.command .canRun r.oneUse).2)
              t r.command .markRun false).2
          else giveItems host t r.header r.rest
                (manageCommandState w t r.command .canRun r.oneUse).2) := by
  simp [targetedExecutes, hcan]

/-- The targeted leaf, target resolved, gate closed. -/
theorem targetedExecutes_of_refused (host : Host) (r : Registered) (t : String) (w : World)
    (hcan : (manageCommandState w t r.command .canRun r.oneUse).1 = some false) :
    targetedExecutes host r (.ok t) w =
      (0, (manageCommandState w t r.command .canRun r.oneUse).2.emit
            (Event.sendFailure
              ("The player has already received items from '" ++ r.command ++ "'."))) := by
  simp [targetedExecutes, hcan]

/-! ## C4: self use with elevated permission -/

/-- C4. When the source of a self invocation holds elevated permission
(`hasPermission(2)`), whatever the command (one-use or not) and whatever the
invoker's flag: the status is 1, the leaf does exactly what
`giveItems(player, items)` does, `manageCommandState` is not called (so in
particular never with `markRun`), and the persistent data after the
invocation is what it was before. -/
theorem self_with_permission_never_marks (host : Host) (r : Registered) (src : Source)
    (w : World) (hperm : src.hasPermission = true) :
    (selfExecutes host r src w).1 = 1 ∧
    (selfExecutes host r src w).2.trace
      = (giveItems host src.player r.header r.rest w).trace ∧
    (∀ (p c : String) (a : Action),
      Event.callManageCommandState p c a
        ∉ (selfExecutes host r src w).2.trace.drop w.trace.length) ∧
    (selfExecutes host r src w).2.persistentData = w.persistentData := by
  rw [selfExecutes_of_permission host r src w hperm]
  refine ⟨rfl, rfl, ?_, giveItems_persistentData _ _ _ _ _⟩
  intro p c a hmem
  obtain ⟨n, tail, htr, htail⟩ := giveItems_shape host src.player r.header r.rest w
  simp only [htr, List.append_assoc, List.drop_left] at hmem
  rcases htail with h | ⟨msg, h⟩ <;> subst h <;> simp at hmem <;>
    simpa using List.mem_of_mem_take hmem

/-- C4 at a concrete input: an operator whose flag for `giveItemSet2` is
already set enters `/giveItemSet2`. -/
theorem self_with_permission_never_marks_witness :
    (Source.mk "Admin" true).hasPermission = true ∧
    ((selfExecutes acceptingHost registered2 (Source.mk "Admin" true)
        ⟨fun _ => some [("giveItemSet2", true)], []⟩).1 = 1 ∧
    (selfExecutes acceptingHost registered2 (Source.mk "Admin" true)
        ⟨fun _ => some [("giveItemSet2", true)], []⟩).2.trace
      = (giveItems acceptingHost (Source.mk "Admin" true).player registered2.header
          registered2.rest ⟨fun _ => some [("giveItemSet2", true)], []⟩).trace ∧
    (∀ (p c : String) (a : Action),
      Event.callManageCommandState p c a
        ∉ (selfExecutes acceptingHost registered2 (Source.mk "Admin" true)
            ⟨fun _ => some [("giveItemSet2", true)], []⟩).2.trace.drop
            (World.mk (fun _ => some [("giveItemSet2", true)]) []).trace.length) ∧
    (selfExecutes acceptingHost registered2 (Source.mk "Admin" true)
        ⟨fun _ => some [("giveItemSet2", true)], []⟩).2.persistentData
      = (World.mk (fun _ => some [("giveItemSet2", true)]) []).persistentData) :=
  ⟨rfl, self_with_permission_never_marks acceptingHost registered2 (Source.mk "Admin" true)
    ⟨fun _ => some [("giveItemSet2", true)], []⟩ rfl⟩

/-! ## C7: the named player cannot be resolved -/

/-- C7. When resolving the player name throws an error whose message
contains `No player was found`, the targeted-invoke leaf and the
targeted-clear leaf both send the failure `Player not found!` and nothing
else (no give request, no call of `manageCommandState`), return status 0 and
leave every player's persistent data as it was. -/
theorem unresolved_player_changes_nothing (host : Host) (r : Registered) (message : String)
    (w : World) (h : includes message "No player was found" = true) :
    (targetedExecutes host r (.error message) w).1 = 0 ∧
    (targetedExecutes host r (.error message) w).2.trace
      = w.trace ++ [Event.sendFailure "Player not found!"] ∧
    (targetedExecutes host r (.error message) w).2.persistentData = w.persistentData ∧
    (clearExecutes r (.error message) w).1 = 0 ∧
    (clearExecutes r (.error message) w).2.trace
      = w.trace ++ [Event.sendFailure "Player not found!"] ∧
    (clearExecutes r (.error message) w).2.persistentData = w.persistentData := by
  simp [targetedExecutes, clearExecutes, catchBlock, h, World.emit]

/-- C7 at a concrete input: `/giveItemSet2 UnknownName` and
`/giveItemSet2 UnknownName clear` while Bob's flag is set. -/
theorem unresolved_player_changes_nothing_witness :
    includes "No player was found" "No player was found" = true ∧
    ((targetedExecutes acceptingHost registered2 (.error "No player was found")
        ⟨fun _ => some [("giveItemSet2", true)], []⟩).1 = 0 ∧
    (targetedExecutes acceptingHost registered2 (.error "No player was found")
        ⟨fun _ => some [("giveItemSet2", true)], []⟩).2.trace
      = (World.mk (fun _ => some [("giveItemSet2", true)]) []).trace
          ++ [Event.sendFailure "Player not found!"] ∧
    (targetedExecutes acceptingHost registered2 (.error "No player was found")
        ⟨fun _ => some [("giveItemSet2", true)], []⟩).2.persistentData
      = (World.mk (fun _ => some [("giveItemSet2", true)]) []).persistentData ∧
    (clearExecutes registered2 (.error "No player was found")
        ⟨fun _ => some [("giveItemSet2", true)], []⟩).1 = 0 ∧
    (clearExecutes registered2 (.error "No player was found")
        ⟨fun _ => some [("giveItemSet2", true)], []⟩).2.trace
      = (World.mk (fun _ => some [("giveItemSet2", true)]) []).trace
          ++ [Event.sendFailure "Player not found!"] ∧
    (clearExecutes registered2 (.error "No player was found")
        ⟨fun _ => some [("giveItemSet2", true)], []⟩).2.persistentData
      = (World.mk (fun _ => some [("giveItemSet2", true)]) []).persistentData) :=
  ⟨by decide, unresolved_player_changes_nothing acceptingHost registered2
    "No player was found" ⟨fun _ => some [("giveItemSet2", true)], []⟩ (by decide)⟩

/-! ## C9: commands that are not one-use -/

/-- C9. `manageCommandState(P, C, 'canRun', false)` returns `true` in every
state of the store.  A registered item set whose header has no `oneUse` (or
`oneUse: false`) gets `oneUse = false`, and then neither the self leaf nor the
targeted leaf (target resolved) refuses: both return status 1 for every
source, target and world. -/
theorem canRun_true_when_not_oneUse (w : World) (P C : String) (items : List Entry)
    (r : Registered) (hreg : registerItemCommand items = some r)
    (hhead : ∀ h ∈ items.head?, h.oneUse = none ∨ h.oneUse = some false) :
    (manageCommandState w P C .canRun false).1 = some true ∧
    r.oneUse = false ∧
    (∀ (host : Host) (src : Source) (w' : World), (selfExecutes host r src w').1 = 1) ∧
    (∀ (host : Host) (t : String) (w' : World),
      (targetedExecutes host r (.ok t) w').1 = 1) := by
  have hone : r.oneUse = false := by
    cases items with
    | nil => simp [registerItemCommand] at hreg
    | cons h t =>
      have hh := hhead h (by simp)
      by_cases hc : truthy h.command = true
      · simp only [registerItemCommand, hc, if_true, Option.some.injEq] at hreg
        subst hreg
        rcases hh with hh | hh <;> simp [hh]
      · simp [registerItemCommand, hc] at hreg
  have hcan : ∀ (w' : World) (p : String),
      (manageCommandState w' p r.command .canRun r.oneUse).1 = some true := by
    intro w' p; rw [canRun_result, hone]; rfl
  refine ⟨by rw [canRun_result]; rfl, hone, ?_, ?_⟩
  · intro host src w'
    cases hp : src.hasPermission with
    | true => rw [selfExecutes_of_permission host r src w' hp]
    | false => rw [selfExecutes_of_canRun host r src w' hp (hcan _ _)]
  · intro host t w'
    rw [targetedExecutes_of_canRun host r t w' (hcan _ _)]

/-- C9 at a concrete input: `itemSet1`, whose header has no `oneUse`, in a
world where the flag of `giveItemSet1` is set for everybody. -/
theorem canRun_true_when_not_oneUse_witness :
    registerItemCommand itemSet1 = some registered1 ∧
    (∀ h ∈ itemSet1.head?, h.oneUse = none ∨ h.oneUse = some false) ∧
    ((manageCommandState ⟨fun _ => some [("giveItemSet1", true)], []⟩
        "Steve" "giveItemSet1" .canRun false).1 = some true ∧
    registered1.oneUse = false ∧
    (∀ (host : Host) (src : Source) (w' : World),
      (selfExecutes host registered1 src w').1 = 1) ∧
    (∀ (host : Host) (t : String) (w' : World),
      (targetedExecutes host registered1 (.ok t) w').1 = 1)) :=
  ⟨by decide, by decide,
   canRun_true_when_not_oneUse ⟨fun _ => some [("giveItemSet1", true)], []⟩
     "Steve" "giveItemSet1" itemSet1 registered1 (by decide) (by decide)⟩

/-! ## C10: which item sets are registered -/

/-- C10, as stated, fails: an item set made of a header alone has length 1
and is registered. -/
theorem header_alone_is_registered :
    [({ command := some "giveNothing" } : Entry)].length < 2 ∧
    registerItemCommand [{ command := some "giveNothing" }]
      = some { command := "giveNothing", oneUse := false,
               header := { command := some "giveNothing" }, rest := [] } := by
  decide

/-- C10, amended. `registerItemCommand` registers no command exactly when the
item set is empty or its first entry carries no command name (absent or
empty); a command is registered exactly when the set is non-empty and its first
entry carries a command name, whether or not an item entry follows, and it is
registered under that name with `oneUse` defaulting to `false`. -/
theorem registerItemCommand_guard (items : List Entry) :
    (registerItemCommand items = none ↔
      items = [] ∨ ∃ h t, items = h :: t ∧ (h.command = none ∨ h.command = some "")) ∧
    (∀ r : Registered, registerItemCommand items = some r ↔
      ∃ h t c, items = h :: t ∧ h.command = some c ∧ c ≠ "" ∧
        r = { command := c, oneUse := h.oneUse.getD false, header := h, rest := t }) := by
  cases items with
  | nil => simp [registerItemCommand]
  | cons h t =>
    cases hc : h.command with
    | none => simp [registerItemCommand, truthy, hc]
    | some c =>
      by_cases he : c = ""
      · simp [registerItemCommand, truthy, hc, he]
      · constructor
        · simp [registerItemCommand, truthy, hc, he]
        · intro r
          simp only [registerItemCommand, truthy, hc, render, bne_iff_ne, ne_eq, he,
            not_false_eq_true, decide_True, if_true, Option.some.injEq, List.cons.injEq]
          constructor
          · intro hr
            exact ⟨h, t, c, ⟨rfl, rfl⟩, by simp [hc], he, hr.symm⟩
          · rintro ⟨h', t', c', ⟨rfl, rfl⟩, hc', -, hr⟩
            rw [hc] at hc'
            cases hc'
            exact hr.symm

/-! ## C2: first and second self use of a one-use command -/

/-- The gate is open for a one-use command when the flag is not `true`. -/
theorem canRun_of_flag_ne_true (w : World) (p c : String) (s : Bool)
    (h : w.flag p c ≠ some true) :
    (manageCommandState w p c .canRun s).1 = some true := by
  rw [canRun_result]
  cases hf : w.flag p c with
  | none => simp
  | some b =>
    cases b with
    | false => simp
    | true => exact absurd hf h

/-- The gate is closed for a one-use command when the flag is `true`. -/
theorem canRun_of_flag_true (w : World) (p c : String) (h : w.flag p c = some true) :
    (manageCommandState w p c .canRun true).1 = some false := by
  rw [canRun_result, h]; rfl

/-- C2. Let `C` be a one-use command with any item list and `P` a player
without elevated permission whose flag for `C` is not set (absent or
`false`).  The first `/C` by `P` calls `giveItems` for `P` (which, when the
host accepts the gives, issues the give requests of all items of the set and
the success message), then marks: the flag of `(P, C)` is `true` and the
status is 1.  The second `/C` by `P`, right after, only sends the
`already received` failure: status 0, no give request, persistent data
unchanged. -/
theorem self_one_use_twice (host : Host) (r : Registered) (P : String) (w : World)
    (hone : r.oneUse = true) (hflag : w.flag P r.command ≠ some true) :
    (selfExecutes host r ⟨P, false⟩ w).1 = 1 ∧
    (selfExecutes host r ⟨P, false⟩ w).2.flag P r.command = some true ∧
    (selfExecutes host r ⟨P, false⟩ w).2.trace
      = (giveItems host P r.header r.rest
          (manageCommandState w P r.command .canRun true).2).trace
        ++ [Event.callManageCommandState P r.command .markRun] ∧
    ((∀ (tr : List Event) (stack : ItemStack), host tr P stack = none) →
      (selfExecutes host r ⟨P, false⟩ w).2.trace
        = w.trace
          ++ [Event.callManageCommandState P r.command .canRun, Event.callGiveItems P]
          ++ (giveRequests (r.header :: r.rest)).map (Event.give P)
          ++ [Event.tell ("Items from '" ++ render r.header.command ++ "' given to " ++ P),
              Event.callManageCommandState P r.command .markRun]) ∧
    (selfExecutes host r ⟨P, false⟩ (selfExecutes host r ⟨P, false⟩ w).2).1 = 0 ∧
    (selfExecutes host r ⟨P, false⟩ (selfExecutes host r ⟨P, false⟩ w).2).2.trace
      = (selfExecutes host r ⟨P, false⟩ w).2.trace
        ++ [Event.callManageCommandState P r.command .canRun,
            Event.sendFailure ("You've already received items from '" ++ r.command ++ "'.")] ∧
    (selfExecutes host r ⟨P, false⟩ (selfExecutes host r ⟨P, false⟩ w).2).2.persistentData
      = (selfExecutes host r ⟨P, false⟩ w).2.persistentData := by
  have hcan := canRun_of_flag_ne_true w P r.command r.oneUse hflag
  have hfirst := selfExecutes_of_canRun host r ⟨P, false⟩ w rfl hcan
  simp only [hone, if_true] at hfirst
  have hf1 : (selfExecutes host r ⟨P, false⟩ w).2.flag P r.command = some true := by
    rw [hfirst, flag_manageCommandState]; simp
  have hcan2 : (manageCommandState (selfExecutes host r ⟨P, false⟩ w).2 P r.command
      .canRun r.oneUse).1 = some false := by
    rw [hone]; exact canRun_of_flag_true _ _ _ hf1
  have hsecond := selfExecutes_of_refused host r ⟨P, false⟩
    (selfExecutes host r ⟨P, false⟩ w).2 rfl hcan2
  refine ⟨by rw [hfirst], hf1, ?_, ?_, by rw [hsecond], ?_, ?_⟩
  · rw [hfirst, manageCommandState_trace]
  · intro hacc
    have hg := (giveItems_trace_of_accepted host P r.header r.rest
      (manageCommandState w P r.command .canRun true).2) (fun j stack _ => hacc _ stack)
    rw [hfirst, manageCommandState_trace, hg, manageCommandState_trace]
    simp
  · rw [hsecond, emit_trace, manageCommandState_trace]
    simp
  · rw [hsecond, emit_persistentData]
    obtain ⟨d, hd⟩ : ∃ d, (selfExecutes host r ⟨P, false⟩ w).2.persistentData P = some d := by
      rw [hfirst]
      exact markRun_persistentData_some
        (giveItems host P r.header r.rest (manageCommandState w P r.command .canRun true).2)
        P r.command false
    exact canRun_persistentData_of_some _ _ _ _ d hd

/-- C2 at a concrete input: the scenario of `giveItemSet2` with a player who
has no usage record yet, on a host that accepts every give. -/
theorem self_one_use_twice_witness :
    registered2.oneUse = true ∧
    freshWorld.flag "Steve" registered2.command ≠ some true ∧
    (selfExecutes acceptingHost registered2 ⟨"Steve", false⟩ freshWorld).2.trace
      = [Event.callManageCommandState "Steve" "giveItemSet2" .canRun,
         Event.callGiveItems "Steve",
         Event.give "Steve" ⟨"minecraft:iron_ingot", 32⟩,
         Event.give "Steve" ⟨"minecraft:gold_ingot", 16⟩,
         Event.give "Steve" ⟨"minecraft:diamond", 8⟩,
         Event.tell "Items from 'giveItemSet2' given to Steve",
         Event.callManageCommandState "Steve" "giveItemSet2" .markRun] ∧
    (selfExecutes acceptingHost registered2 ⟨"Steve", false⟩
      (selfExecutes acceptingHost registered2 ⟨"Steve", false⟩ freshWorld).2).1 = 0 :=
  ⟨rfl, by decide,
   ((self_one_use_twice acceptingHost registered2 "Steve" freshWorld rfl
      (by decide)).2.2.2.1 (fun _ _ => rfl)).trans (by decide),
   (self_one_use_twice acceptingHost registered2 "Steve" freshWorld rfl (by decide)).2.2.2.2.1⟩

/-! ## C5: what a targeted invocation marks -/

/-- C5, as stated, fails for a command that is not one-use: `/giveItemSet1 Bob`
is allowed and returns status 1, yet no `markRun` call is made and Bob has no
flag for `giveItemSet1` afterwards. -/
theorem targeted_not_one_use_does_not_mark :
    registerItemCommand itemSet1 = some registered1 ∧
    (targetedExecutes acceptingHost registered1 (.ok "Bob") freshWorld).1 = 1 ∧
    (targetedExecutes acceptingHost registered1 (.ok "Bob") freshWorld).2.flag
      "Bob" "giveItemSet1" = none ∧
    (targetedExecutes acceptingHost registered1 (.ok "Bob") freshWorld).2.trace
      = [Event.callManageCommandState "Bob" "giveItemSet1" .canRun,
         Event.callGiveItems "Bob",
         Event.give "Bob" ⟨"minecraft:stone_sword", 1⟩,
         Event.give "Bob" ⟨"minecraft:stone_pickaxe", 1⟩,
         Event.give "Bob" ⟨"minecraft:stone_axe", 1⟩,
         Event.give "Bob" ⟨"minecraft:stone_shovel", 1⟩,
         Event.tell "Items from 'giveItemSet1' given to Bob"] := by
  decide

/-- C5, amended. For every one-use command and every resolved target `T`:
when the targeted invocation returns status 1, its last action is the call
`manageCommandState(T, C, 'markRun')` and the flag of `(T, C)` is `true`
afterwards, whatever the world (so whatever the usage state of the invoking
operator).  For a command that is not one-use the targeted invocation returns
status 1 without any `markRun` call, and the flag of `(T, C)` is what it was
before. -/
theorem targeted_marks_when_one_use (host : Host) (r : Registered) (T : String) (w : World) :
    (r.oneUse = true → (targetedExecutes host r (.ok T) w).1 = 1 →
      (targetedExecutes host r (.ok T) w).2.flag T r.command = some true ∧
      (targetedExecutes host r (.ok T) w).2.trace.getLast?
        = some (Event.callManageCommandState T r.command .markRun)) ∧
    (r.oneUse = false →
      (targetedExecutes host r (.ok T) w).1 = 1 ∧
      (targetedExecutes host r (.ok T) w).2.flag T r.command = w.flag T r.command ∧
      ∀ p c : String, Event.callManageCommandState p c .markRun
        ∉ (targetedExecutes host r (.ok T) w).2.trace.drop w.trace.length) := by
  constructor
  · intro hone hstatus
    have hcan : (manageCommandState w T r.command .canRun r.oneUse).1 = some true := by
      cases hf : w.flag T r.command == some true with
      | false =>
        exact canRun_of_flag_ne_true w T r.command r.oneUse (by simpa using hf)
      | true =>
        have hf' : w.flag T r.command = some true := by simpa using hf
        have href := targetedExecutes_of_refused host r T w
          (by rw [hone]; exact canRun_of_flag_true w T r.command hf')
        rw [href] at hstatus
        simp at hstatus
    have hout := targetedExecutes_of_canRun host r T w hcan
    simp only [hone, if_true] at hout
    rw [hout]
    constructor
    · rw [flag_manageCommandState]; simp
    · rw [manageCommandState_trace]; simp
  · intro hone
    have hcan : (manageCommandState w T r.command .canRun r.oneUse).1 = some true := by
      rw [canRun_result, hone]; rfl
    have hout := targetedExecutes_of_canRun host r T w hcan
    simp only [hone, Bool.false_eq_true, if_false] at hout
    rw [hout]
    refine ⟨rfl, ?_, ?_⟩
    · rw [giveItems_flag, flag_manageCommandState]; simp
    · intro p c hmem
      obtain ⟨n, tail, htr, htail⟩ := giveItems_shape host T r.header r.rest
        (manageCommandState w T r.command .canRun false).2
      simp only [htr, manageCommandState_trace, List.append_assoc, List.drop_left] at hmem
      rcases htail with h | ⟨msg, h⟩ <;> subst h <;> simp at hmem <;>
        simpa using List.mem_of_mem_take hmem

/-- C5 (amended) at a concrete input: the operator enters `/giveItemSet2 Bob`
while Bob's flag is absent. -/
theorem targeted_marks_when_one_use_witness :
    registered2.oneUse = true ∧
    (targetedExecutes acceptingHost registered2 (.ok "Bob") freshWorld).1 = 1 ∧
    (targetedExecutes acceptingHost registered2 (.ok "Bob") freshWorld).2.flag
      "Bob" registered2.command = some true ∧
    (targetedExecutes acceptingHost registered2 (.ok "Bob") freshWorld).2.trace.getLast?
      = some (Event.callManageCommandState "Bob" registered2.command .markRun) :=
  ⟨rfl, by decide,
   (targeted_marks_when_one_use acceptingHost registered2 "Bob" freshWorld).1 rfl
     (by decide)⟩

/-! ## C6: a give that fails -/

/-- C6, as stated, fails: on a host whose give throws for gold ingots, the
first `/giveItemSet2` of a player without elevated permission and without
flag logs and reports the error, still returns status 1, and sets the flag. -/
theorem failed_grant_still_returns_one_and_marks :
    grantError goldRejectingHost "Steve" registered2
      (manageCommandState freshWorld "Steve" "giveItemSet2" .canRun true).2
      = some "Inventory full" ∧
    (selfExecutes goldRejectingHost registered2 ⟨"Steve", false⟩ freshWorld).1 = 1 ∧
    (selfExecutes goldRejectingHost registered2 ⟨"Steve", false⟩ freshWorld).2.flag
      "Steve" "giveItemSet2" = some true ∧
    (selfExecutes goldRejectingHost registered2 ⟨"Steve", false⟩ freshWorld).2.trace
      = [Event.callManageCommandState "Steve" "giveItemSet2" .canRun,
         Event.callGiveItems "Steve",
         Event.give "Steve" ⟨"minecraft:iron_ingot", 32⟩,
         Event.give "Steve" ⟨"minecraft:gold_ingot", 16⟩,
         Event.consoleError "Error giving items: Inventory full",
         Event.tell "Error giving items from 'giveItemSet2': Inventory full",
         Event.callManageCommandState "Steve" "giveItemSet2" .markRun] := by
  decide

/-- C6, amended. In every allowed invocation (self with elevated permission,
self without it, targeted) in which the host's give raises a failure with
message `msg`: the error is caught inside `giveItems`, which logs it and
tells the failure message; the leaf still returns status 1; the self leaf
with elevated permission leaves the persistent data alone, while for a
one-use command the self leaf without elevated permission and the targeted
leaf still call `markRun`, so the flag is `true` afterwards. -/
theorem failed_grant_is_reported_inside_giveItems (host : Host) (r : Registered)
    (msg : String) :
    (∀ (src : Source) (w : World), src.hasPermission = true →
      grantError host src.player r w = some msg →
      (selfExecutes host r src w).1 = 1 ∧
      Event.consoleError ("Error giving items: " ++ msg)
        ∈ (selfExecutes host r src w).2.trace ∧
      Event.tell ("Error giving items from '" ++ render r.header.command ++ "': " ++ msg)
        ∈ (selfExecutes host r src w).2.trace ∧
      (selfExecutes host r src w).2.persistentData = w.persistentData) ∧
    (∀ (src : Source) (w : World), src.hasPermission = false →
      (manageCommandState w src.player r.command .canRun r.oneUse).1 = some true →
      grantError host src.player r
        (manageCommandState w src.player r.command .canRun r.oneUse).2 = some msg →
      (selfExecutes host r src w).1 = 1 ∧
      Event.consoleError ("Error giving items: " ++ msg)
        ∈ (selfExecutes host r src w).2.trace ∧
      Event.tell ("Error giving items from '" ++ render r.header.command ++ "': " ++ msg)
        ∈ (selfExecutes host r src w).2.trace ∧
      (r.oneUse = true →
        (selfExecutes host r src w).2.flag src.player r.command = some true)) ∧
    (∀ (T : String) (w : World),
      (manageCommandState w T r.command .canRun r.oneUse).1 = some true →
      grantError host T r (manageCommandState w T r.command .canRun r.oneUse).2 = some msg →
      (targetedExecutes host r (.ok T) w).1 = 1 ∧
      Event.consoleError ("Error giving items: " ++ msg)
        ∈ (targetedExecutes host r (.ok T) w).2.trace ∧
      Event.tell ("Error giving items from '" ++ render r.header.command ++ "': " ++ msg)
        ∈ (targetedExecutes host r (.ok T) w).2.trace ∧
      (r.oneUse = true →
        (targetedExecutes host r (.ok T) w).2.flag T r.command = some true)) := by
  refine ⟨?_, ?_, ?_⟩
  · intro src w hperm hfail
    obtain ⟨tr, htr⟩ := giveItems_trace_of_grantError host src.player r w msg hfail
    rw [selfExecutes_of_permission host r src w hperm]
    exact ⟨rfl, by simp [htr], by simp [htr], giveItems_persistentData _ _ _ _ _⟩
  · intro src w hperm hcan hfail
    obtain ⟨tr, htr⟩ := giveItems_trace_of_grantError host src.player r _ msg hfail
    rw [selfExecutes_of_canRun host r src w hperm hcan]
    cases hone : r.oneUse with
    | false =>
      simp only [Bool.false_eq_true, if_false]
      rw [hone] at htr
      exact ⟨trivial, by simp [htr], by simp [htr], fun h => absurd h (by decide)⟩
    | true =>
      simp only [if_true]
      rw [hone] at htr
      refine ⟨trivial, by simp [manageCommandState_trace, htr],
        by simp [manageCommandState_trace, htr], fun _ => ?_⟩
      rw [flag_manageCommandState]; simp
  · intro T w hcan hfail
    obtain ⟨tr, htr⟩ := giveItems_trace_of_grantError host T r _ msg hfail
    rw [targetedExecutes_of_canRun host r T w hcan]
    cases hone : r.oneUse with
    | false =>
      simp only [Bool.false_eq_true, if_false]
      rw [hone] at htr
      exact ⟨trivial, by simp [htr], by simp [htr], fun h => absurd h (by decide)⟩
    | true =>
      simp only [if_true]
      rw [hone] at htr
      refine ⟨trivial, by simp [manageCommandState_trace, htr],
        by simp [manageCommandState_trace, htr], fun _ => ?_⟩
      rw [flag_manageCommandState]; simp

/-- C6 (amended) at a concrete input: the operator enters `/giveItemSet2 Bob`
on a host whose give throws for gold ingots. -/
theorem failed_grant_is_reported_inside_giveItems_witness :
    (manageCommandState freshWorld "Bob" registered2.command .canRun registered2.oneUse).1
      = some true ∧
    grantError goldRejectingHost "Bob" registered2
      (manageCommandState freshWorld "Bob" registered2.command .canRun registered2.oneUse).2
      = some "Inventory full" ∧
    ((targetedExecutes goldRejectingHost registered2 (.ok "Bob") freshWorld).1 = 1 ∧
    Event.consoleError ("Error giving items: " ++ "Inventory full")
      ∈ (targetedExecutes goldRejectingHost registered2 (.ok "Bob") freshWorld).2.trace ∧
    Event.tell ("Error giving items from '" ++ render registered2.header.command ++ "': "
        ++ "Inventory full")
      ∈ (targetedExecutes goldRejectingHost registered2 (.ok "Bob") freshWorld).2.trace ∧
    (registered2.oneUse = true →
      (targetedExecutes goldRejectingHost registered2 (.ok "Bob") freshWorld).2.flag
        "Bob" registered2.command = some true)) :=
  ⟨by decide, by decide,
   (failed_grant_is_reported_inside_giveItems goldRejectingHost registered2
      "Inventory full").2.2 "Bob" freshWorld (by decide) (by decide)⟩

/-! ## C3: a one-use command is granted at most once -/

theorem giveItemsCalls_append (P : String) (tr tr' : List Event) :
    giveItemsCalls P (tr ++ tr') = giveItemsCalls P tr + giveItemsCalls P tr' := by
  simp [giveItemsCalls, List.count_append]

theorem giveItemsCalls_gives (P p : String) (l : List ItemStack) :
    giveItemsCalls P (l.map (Event.give p)) = 0 := by
  simp [giveItemsCalls, List.count_eq_zero]

theorem giveItemsCalls_emit (P : String) (w : World) (e : Event)
    (h : e ≠ Event.callGiveItems P) :
    giveItemsCalls P (w.emit e).trace = giveItemsCalls P w.trace := by
  rw [emit_trace, giveItemsCalls_append]
  simp [giveItemsCalls, List.count_singleton, h]

theorem giveItemsCalls_manageCommandState (P : String) (w : World) (p c : String)
    (a : Action) (s : Bool) :
    giveItemsCalls P (manageCommandState w p c a s).2.trace = giveItemsCalls P w.trace := by
  rw [manageCommandState_trace, giveItemsCalls_append]
  simp [giveItemsCalls, List.count_singleton]

theorem giveItemsCalls_giveItems (P : String) (host : Host) (p : String) (header : Entry)
    (rest : List Entry) (w : World) :
    giveItemsCalls P (giveItems host p header rest w).trace
      = giveItemsCalls P w.trace + (if p = P then 1 else 0) := by
  obtain ⟨n, tail, htr, htail⟩ := giveItems_shape host p header rest w
  rw [htr]
  simp only [giveItemsCalls_append, giveItemsCalls_gives]
  rcases htail with h | ⟨msg, h⟩ <;> subst h <;>
    simp [giveItemsCalls, List.count_singleton, List.count_cons]

/-- The world after an allowed gated grant of a one-use command to `p`. -/
theorem granted_world (host : Host) (r : Registered) (p P : String) (w : World) :
    (manageCommandState
        (giveItems host p r.header r.rest
          (manageCommandState w p r.command .canRun r.oneUse).2)
        p r.command .markRun false).2.flag P r.command
      = (if P = p then some true else w.flag P r.command) ∧
    giveItemsCalls P (manageCommandState
        (giveItems host p r.header r.rest
          (manageCommandState w p r.command .canRun r.oneUse).2)
        p r.command .markRun false).2.trace
      = giveItemsCalls P w.trace + (if p = P then 1 else 0) := by
  constructor
  · rw [flag_manageCommandState]
    by_cases h : P = p
    · simp [h]
    · rw [if_neg (fun hh => h hh.1), if_neg h, giveItems_flag, flag_manageCommandState,
        if_neg (fun hh => h hh.1)]
  · rw [giveItemsCalls_manageCommandState, giveItemsCalls_giveItems,
      giveItemsCalls_manageCommandState]

/-- The world after a refused gated grant. -/
theorem refused_world (r : Registered) (p P : String) (w : World) (msg : String) :
    ((manageCommandState w p r.command .canRun r.oneUse).2.emit
        (Event.sendFailure msg)).flag P r.command = w.flag P r.command ∧
    giveItemsCalls P ((manageCommandState w p r.command .canRun r.oneUse).2.emit
        (Event.sendFailure msg)).trace = giveItemsCalls P w.trace := by
  constructor
  · rw [emit_flag, flag_manageCommandState]
    by_cases h : P = p ∧ r.command = r.command
    · rw [if_pos h, h.1]
    · rw [if_neg h]
  · rw [giveItemsCalls_emit _ _ _ (by simp), giveItemsCalls_manageCommandState]

/-- The world after the shared `catch` block. -/
theorem catchBlock_world (message : String) (P c : String) (w : World) :
    (catchBlock message w).2.flag P c = w.flag P c ∧
    giveItemsCalls P (catchBlock message w).2.trace = giveItemsCalls P w.trace := by
  unfold catchBlock
  split
  · exact ⟨rfl, giveItemsCalls_emit _ _ _ (by simp)⟩
  · refine ⟨rfl, ?_⟩
    rw [giveItemsCalls_emit _ _ _ (by simp), giveItemsCalls_emit _ _ _ (by simp)]

/-- A gated grant of a one-use command to `p`, allowed or refused: a set flag
of `(P, C)` stays set and then `giveItems` is not entered for `P`; otherwise
`giveItems` is entered for `P` at most once, and if so the flag is set. -/
theorem gated_step (host : Host) (r : Registered) (p P : String) (w : World)
    (out : Nat × World) (hone : r.oneUse = true)
    (hallowed : (manageCommandState w p r.command .canRun r.oneUse).1 = some true →
      out.2 = (manageCommandState
        (giveItems host p r.header r.rest
          (manageCommandState w p r.command .canRun r.oneUse).2)
        p r.command .markRun false).2)
    (hrefused : (manageCommandState w p r.command .canRun r.oneUse).1 = some false →
      ∃ msg, out.2 = (manageCommandState w p r.command .canRun r.oneUse).2.emit
        (Event.sendFailure msg)) :
    (w.flag P r.command = some true →
      out.2.flag P r.command = some true ∧
      giveItemsCalls P out.2.trace = giveItemsCalls P w.trace) ∧
    (giveItemsCalls P out.2.trace = giveItemsCalls P w.trace ∨
      (giveItemsCalls P out.2.trace = giveItemsCalls P w.trace + 1 ∧
        out.2.flag P r.command = some true)) := by
  by_cases hf : w.flag p r.command = some true
  · have hcan : (manageCommandState w p r.command .canRun r.oneUse).1 = some false := by
      rw [hone]; exact canRun_of_flag_true w p r.command hf
    obtain ⟨msg, hout⟩ := hrefused hcan
    obtain ⟨h1, h2⟩ := refused_world r p P w msg
    rw [hout]
    exact ⟨fun h => ⟨h1.trans h, h2⟩, Or.inl h2⟩
  · have hout := hallowed (canRun_of_flag_ne_true w p r.command r.oneUse hf)
    obtain ⟨h1, h2⟩ := granted_world host r p P w
    rw [hout]
    by_cases hp : p = P
    · subst hp
      rw [if_pos rfl] at h1 h2
      exact ⟨fun h => absurd h hf, Or.inr ⟨h2, h1⟩⟩
    · rw [if_neg (fun hh => hp hh.symm)] at h1
      rw [if_neg hp] at h2
      exact ⟨fun h => ⟨h1.trans h, h2⟩, Or.inl h2⟩

/-- One admissible invocation of a one-use command. -/
theorem admissible_step (host : Host) (r : Registered) (P : String) (w : World) (s : Step)
    (hone : r.oneUse = true) (hs : s.admissible P = true) :
    (w.flag P r.command = some true →
      (runStep host r w s).2.flag P r.command = some true ∧
      giveItemsCalls P (runStep host r w s).2.trace = giveItemsCalls P w.trace) ∧
    (giveItemsCalls P (runStep host r w s).2.trace = giveItemsCalls P w.trace ∨
      (giveItemsCalls P (runStep host r w s).2.trace = giveItemsCalls P w.trace + 1 ∧
        (runStep host r w s).2.flag P r.command = some true)) := by
  cases s with
  | self src =>
    cases hp : src.hasPermission with
    | true =>
      have hne : src.player ≠ P := by simpa [Step.admissible, hp] using hs
      have hcalls : giveItemsCalls P (runStep host r w (.self src)).2.trace
          = giveItemsCalls P w.trace := by
        simp only [runStep]
        rw [selfExecutes_of_permission host r src w hp, giveItemsCalls_giveItems, if_neg hne]
        rfl
      have hfl : (runStep host r w (.self src)).2.flag P r.command = w.flag P r.command := by
        simp only [runStep]
        rw [selfExecutes_of_permission host r src w hp, giveItems_flag]
      exact ⟨fun h => ⟨hfl.trans h, hcalls⟩, Or.inl hcalls⟩
    | false =>
      refine gated_step host r src.player P w (runStep host r w (.self src)) hone ?_ ?_
      · intro hcan
        simp only [runStep]
        rw [selfExecutes_of_canRun host r src w hp hcan, hone]
        rfl
      · intro hcan
        simp only [runStep]
        rw [selfExecutes_of_refused host r src w hp hcan]
        exact ⟨_, rfl⟩
  | targeted resolved =>
    cases resolved with
    | ok t =>
      refine gated_step host r t P w (runStep host r w (.targeted (.ok t))) hone ?_ ?_
      · intro hcan
        simp only [runStep]
        rw [targetedExecutes_of_canRun host r t w hcan, hone]
        rfl
      · intro hcan
        simp only [runStep]
        rw [targetedExecutes_of_refused host r t w hcan]
        exact ⟨_, rfl⟩
    | error message =>
      obtain ⟨h1, h2⟩ := catchBlock_world message P r.command w
      exact ⟨fun h => ⟨h1.trans h, h2⟩, Or.inl h2⟩
  | clear resolved =>
    cases resolved with
    | ok t =>
      have hne : P ≠ t := by
        have : t ≠ P := by simpa [Step.admissible] using hs
        exact fun h => this h.symm
      have hcalls : giveItemsCalls P (runStep host r w (.clear (.ok t))).2.trace
          = giveItemsCalls P w.trace := by
        simp only [runStep, clearExecutes]
        rw [giveItemsCalls_emit _ _ _ (by simp), giveItemsCalls_emit _ _ _ (by simp),
          giveItemsCalls_manageCommandState]
      have hfl : (runStep host r w (.clear (.ok t))).2.flag P r.command
          = w.flag P r.command := by
        simp only [runStep, clearExecutes]
        rw [emit_flag, emit_flag, flag_manageCommandState, if_neg (fun hh => hne hh.1)]
      exact ⟨fun h => ⟨hfl.trans h, hcalls⟩, Or.inl hcalls⟩
    | error message =>
      obtain ⟨h1, h2⟩ := catchBlock_world message P r.command w
      exact ⟨fun h => ⟨h1.trans h, h2⟩, Or.inl h2⟩

/-- Over a whole admissible history: nothing more once the flag is set, and
at most one entry into `giveItems` for `P` in any case. -/
theorem admissible_history (host : Host) (r : Registered) (P : String)
    (hone : r.oneUse = true) (steps : List Step) :
    ∀ w : World, (∀ s ∈ steps, s.admissible P = true) →
      (w.flag P r.command = some true →
        giveItemsCalls P (runSteps host r w steps).trace = giveItemsCalls P w.trace) ∧
      giveItemsCalls P (runSteps host r w steps).trace ≤ giveItemsCalls P w.trace + 1 := by
  induction steps with
  | nil => intro w _; exact ⟨fun _ => rfl, Nat.le_succ _⟩
  | cons s ss ih =>
    intro w hadm
    obtain ⟨hA, hB⟩ := admissible_step host r P w s hone (hadm s (List.mem_cons_self _ _))
    obtain ⟨ih1, ih2⟩ := ih (runStep host r w s).2
      (fun s' hs' => hadm s' (List.mem_cons_of_mem _ hs'))
    simp only [runSteps]
    constructor
    · intro hf
      obtain ⟨hf1, hc1⟩ := hA hf
      rw [ih1 hf1, hc1]
    · rcases hB with hc | ⟨hc, hf1⟩
      · rw [← hc]; exact ih2
      · rw [ih1 hf1, hc]

/-- C3. Let `C` be a one-use command and `P` a player who never holds
elevated permission.  Starting from any world, over every sequence of
invocations of `C` (self invocations by `P`, targeted invocations on `P`, and
any invocations by or on other players) that contains no targeted clear of
`C` for `P`, `giveItems` is entered for `P` at most once. -/
theorem one_use_granted_at_most_once (host : Host) (r : Registered) (P : String) (w : World)
    (steps : List Step) (hone : r.oneUse = true)
    (hadm : ∀ s ∈ steps, s.admissible P = true) :
    giveItemsCalls P (runSteps host r w steps).trace ≤ giveItemsCalls P w.trace + 1 :=
  (admissible_history host r P hone steps w hadm).2

/-- C3 at a concrete input: Steve enters `/giveItemSet2`, an operator enters
`/giveItemSet2 Steve`, Bob's flag is cleared, Steve tries again, an operator
grants Bob. -/
theorem one_use_granted_at_most_once_witness :
    registered2.oneUse = true ∧
    (∀ s ∈ [Step.self ⟨"Steve", false⟩, Step.targeted (.ok "Steve"),
            Step.clear (.ok "Bob"), Step.self ⟨"Steve", false⟩,
            Step.targeted (.ok "Bob")], s.admissible "Steve" = true) ∧
    giveItemsCalls "Steve" (runSteps acceptingHost registered2 freshWorld
        [Step.self ⟨"Steve", false⟩, Step.targeted (.ok "Steve"),
         Step.clear (.ok "Bob"), Step.self ⟨"Steve", false⟩,
         Step.targeted (.ok "Bob")]).trace
      ≤ giveItemsCalls "Steve" freshWorld.trace + 1 :=
  ⟨rfl, by decide,
   one_use_granted_at_most_once acceptingHost registered2 "Steve" freshWorld _ rfl
     (by decide)⟩

end ItemSetDistributor
